import Mathlib

/-!
Shallow embedding of the WebGL pixel-mirror sketch
(`src/p5-webgl-pixel-mirror/sketch.js`).

The sketch samples a downscaled webcam pixel buffer on a regular grid and
renders one rotated 3D disk per grid cell.  JavaScript numbers are modelled
as exact rationals (reals where π enters), the RGBA pixel buffer as a flat
list of naturals, and out-of-range array indexing as `Option` (JavaScript
`undefined`).
-/

namespace PixelMirror

/-- `scaleValue = 10`, the video downscale factor (sketch.js line 8). -/
def scaleValue : ℕ := 10

/-- Canvas width from `createCanvas(1280, 720, WEBGL)`. -/
def width : ℕ := 1280

/-- Canvas height from `createCanvas(1280, 720, WEBGL)`. -/
def height : ℕ := 720

/-- The mutable program state: the global variables the sketch reads and the
key handler writes, plus the capture buffer contents/dimensions and mouse
position delivered by the host. -/
structure SketchState where
  gridSize : ℕ
  diskRadius : ℕ
  captureWidth : ℕ
  captureHeight : ℕ
  pixels : List ℕ
  mouseX : ℚ
  mouseY : ℚ
  deriving DecidableEq

/-- The initial configuration: `gridSize = 20`, `diskRadius = 15`, capture
sized `1920/scaleValue × 1080/scaleValue` (sketch.js lines 6-8, 15). -/
def initialState : SketchState :=
  { gridSize := 20, diskRadius := 15,
    captureWidth := 1920 / scaleValue, captureHeight := 1080 / scaleValue,
    pixels := [], mouseX := 0, mouseY := 0 }

/-- `floor(dimension / gridSize)` — grid dimension derivation
(sketch.js lines 45-46). -/
def gridCols (w g : ℕ) : ℕ := ⌊(w : ℚ) / (g : ℚ)⌋₊

/-- `captureX = floor((x / cols) * capture.width)` (sketch.js line 52). -/
def captureX (x cols cw : ℕ) : ℕ := ⌊((x : ℚ) / (cols : ℚ)) * (cw : ℚ)⌋₊

/-- `captureY = floor((y / rows) * capture.height)` (sketch.js line 53). -/
def captureY (y rows ch : ℕ) : ℕ := ⌊((y : ℚ) / (rows : ℚ)) * (ch : ℚ)⌋₊

/-- `offset = (captureY * capture.width + captureX) * 4` (sketch.js line 56). -/
def pixelOffset (cx cy cw : ℕ) : ℕ := (cy * cw + cx) * 4

/-- The channel reads `capture.pixels[offset]`, `[offset+1]`, `[offset+2]`
for grid cell (x, y) (sketch.js lines 52-61); `none` models the JavaScript
`undefined` produced by an out-of-bounds index. -/
def sampleAt (pixels : List ℕ) (cw ch cols rows x y : ℕ) :
    Option ℕ × Option ℕ × Option ℕ :=
  let off := pixelOffset (captureX x cols cw) (captureY y rows ch) cw
  (pixels[off]?, pixels[off + 1]?, pixels[off + 2]?)

/-- `brightness = (r + g + b) / 3` (sketch.js line 64), exact division. -/
def brightness (r g b : ℚ) : ℚ := (r + g + b) / 3

/-- Brightness of a sampled channel triple; if any channel read was
out of bounds the JavaScript arithmetic is poisoned (NaN), modelled `none`. -/
def sampleBrightness : Option ℕ × Option ℕ × Option ℕ → Option ℚ
  | (some r, some g, some b) => some (brightness r g b)
  | _ => none

/-- p5.js `map(v, a, b, c, d)`: linear rescale of `v` from `[a,b]` to `[c,d]`. -/
def p5map {α : Type} [Field α] (v a b c d : α) : α :=
  (v - a) / (b - a) * (d - c) + c

/-- `zDepth = map(brightness, 0, 255, -100, 100)` (sketch.js line 71). -/
def zDepthOf (br : ℚ) : ℚ := p5map br 0 255 (-100) 100

/-- One emitted disk: the arguments of the per-cell `translate`,
`specularMaterial` and `cylinder` calls.  The rotation angle passed to
`rotateX` is `map(brightness, 0, 255, 0, PI)`, a real number determined by
the `brightness` field. -/
structure DiskCall where
  xPos : ℚ
  yPos : ℚ
  zDepth : Option ℚ
  brightness : Option ℚ
  r : Option ℕ
  g : Option ℕ
  b : Option ℕ
  radius : ℕ
  deriving DecidableEq

/-- Body of the nested loop (sketch.js lines 49-99): sample the capture
buffer at cell (x, y), derive brightness and depth, and emit one disk at
`(x*gridSize + gridSize/2, y*gridSize + gridSize/2)`. -/
def renderCell (s : SketchState) (cols rows x y : ℕ) : DiskCall :=
  let sm := sampleAt s.pixels s.captureWidth s.captureHeight cols rows x y
  let br := sampleBrightness sm
  { xPos := (x : ℚ) * s.gridSize + (s.gridSize : ℚ) / 2,
    yPos := (y : ℚ) * s.gridSize + (s.gridSize : ℚ) / 2,
    zDepth := br.map zDepthOf,
    brightness := br,
    r := sm.1, g := sm.2.1, b := sm.2.2,
    radius := s.diskRadius }

/-- Everything one frame emits: the background clear, the lights, and the
per-cell disk draw calls in loop order. -/
structure FrameOutput where
  background : ℕ
  ambient : ℕ
  pointPos : ℚ × ℚ × ℚ
  disks : List DiskCall
  deriving DecidableEq

/-- One execution of `draw()` (sketch.js lines 22-101).  The function has no
assignment to any global, so the state passes through unchanged; the second
component is the sequence of emitted draw calls (`y` outer loop, `x` inner). -/
def draw (s : SketchState) : SketchState × FrameOutput :=
  let locX := s.mouseX - (width : ℚ) / 2
  let locY := s.mouseY - (height : ℚ) / 2
  let cols := gridCols width s.gridSize
  let rows := gridCols height s.gridSize
  (s, { background := 20, ambient := 60,
        pointPos := (locX, locY, 200),
        disks := (List.range rows).flatMap fun y =>
          (List.range cols).map fun x => renderCell s cols rows x y })

/-- p5.js key code for the up arrow. -/
def UP_ARROW : ℕ := 38

/-- p5.js key code for the down arrow. -/
def DOWN_ARROW : ℕ := 40

/-- A key-press event as p5.js exposes it: the `key` string and the
numeric `keyCode`. -/
structure KeyEvent where
  key : String
  keyCode : ℕ

/-- `keyPressed()` (sketch.js lines 104-123): arrows adjust `gridSize`
within [10, 40], brackets adjust `diskRadius` within [5, 30]; the space
branch is empty. -/
def keyPressed (e : KeyEvent) (s : SketchState) : SketchState :=
  let s₁ :=
    if e.keyCode = UP_ARROW then { s with gridSize := max 10 (s.gridSize - 2) }
    else if e.keyCode = DOWN_ARROW then { s with gridSize := min 40 (s.gridSize + 2) }
    else s
  if e.key = "[" then { s₁ with diskRadius := max 5 (s₁.diskRadius - 2) }
  else if e.key = "]" then { s₁ with diskRadius := min 30 (s₁.diskRadius + 2) }
  else s₁

/-- Folding a sequence of key-press events over a state. -/
def keyFold (s : SketchState) (ks : List KeyEvent) : SketchState :=
  ks.foldl (fun t k => keyPressed k t) s

/-! ## Helper lemmas -/

/-- `floor` of an exact rational quotient of naturals is natural division. -/
theorem gridCols_eq_div (w g : ℕ) : gridCols w g = w / g := by
  rw [gridCols, Nat.floor_div_nat, Nat.floor_natCast]

theorem captureX_eq_div (x cols cw : ℕ) : captureX x cols cw = x * cw / cols := by
  rw [captureX, div_mul_eq_mul_div]
  rw [show ((x : ℚ) * (cw : ℚ)) = ((x * cw : ℕ) : ℚ) by push_cast; ring]
  rw [Nat.floor_div_nat, Nat.floor_natCast]

theorem captureY_eq_div (y rows ch : ℕ) : captureY y rows ch = y * ch / rows := by
  rw [captureY, div_mul_eq_mul_div]
  rw [show ((y : ℚ) * (ch : ℚ)) = ((y * ch : ℕ) : ℚ) by push_cast; ring]
  rw [Nat.floor_div_nat, Nat.floor_natCast]

theorem isSome_of_lt {l : List ℕ} {i : ℕ} (h : i < l.length) : (l[i]?).isSome := by
  rw [List.getElem?_eq_getElem h]; rfl

/-! ## C1 — sampling formulas and the offset-92 instance -/

/-- C1: for every grid cell (x, y) the sampler computes
`srcX = floor((x/cols)*bufferWidth)`, `srcY = floor((y/rows)*bufferHeight)`,
`offset = (srcY*bufferWidth + srcX)*4`, and reads channels r, g, b at
`offset`, `offset+1`, `offset+2`; for bufferWidth = bufferHeight = 10 with
cols = rows = 10 and (x, y) = (3, 2) the offset is 92 and the channel reads
are `buffer[92]`, `buffer[93]`, `buffer[94]` (within the pixel's byte range
92..95). -/
theorem sampler_offset_formula (pixels : List ℕ) (cw ch cols rows x y : ℕ) :
    sampleAt pixels cw ch cols rows x y =
      (pixels[pixelOffset (captureX x cols cw) (captureY y rows ch) cw]?,
       pixels[pixelOffset (captureX x cols cw) (captureY y rows ch) cw + 1]?,
       pixels[pixelOffset (captureX x cols cw) (captureY y rows ch) cw + 2]?) ∧
    captureX x cols cw = ⌊((x : ℚ) / (cols : ℚ)) * (cw : ℚ)⌋₊ ∧
    captureY y rows ch = ⌊((y : ℚ) / (rows : ℚ)) * (ch : ℚ)⌋₊ ∧
    pixelOffset (captureX 3 10 10) (captureY 2 10 10) 10 = 92 ∧
    sampleAt pixels 10 10 10 10 3 2 = (pixels[92]?, pixels[93]?, pixels[94]?) := by
  have hoff : pixelOffset (captureX 3 10 10) (captureY 2 10 10) 10 = 92 := by
    rw [captureX_eq_div, captureY_eq_div]; rfl
  refine ⟨rfl, rfl, rfl, hoff, ?_⟩
  simp only [sampleAt, hoff]

/-! ## C2 — the sampler never reads out of bounds -/

/-- C2: for bufferWidth, bufferHeight, cols, rows ≥ 1 and any cell
(x, y) with x < cols, y < rows, the offset satisfies
`offset ≤ (bufferWidth*bufferHeight - 1)*4`, `offset + 3` is below the
buffer length `bufferWidth*bufferHeight*4`, and all channel lookups at
offset..offset+3 succeed (`isSome`): the out-of-bounds (`none`) branch of
the embedded indexing is unreachable. -/
theorem sampler_in_bounds (pixels : List ℕ) (cw ch cols rows x y : ℕ)
    (hcw : 1 ≤ cw) (hch : 1 ≤ ch) (hcols : 1 ≤ cols) (hrows : 1 ≤ rows)
    (hx : x < cols) (hy : y < rows)
    (hlen : pixels.length = cw * ch * 4) :
    pixelOffset (captureX x cols cw) (captureY y rows ch) cw ≤ (cw * ch - 1) * 4 ∧
    pixelOffset (captureX x cols cw) (captureY y rows ch) cw + 3 < cw * ch * 4 ∧
    (sampleAt pixels cw ch cols rows x y).1.isSome ∧
    (sampleAt pixels cw ch cols rows x y).2.1.isSome ∧
    (sampleAt pixels cw ch cols rows x y).2.2.isSome ∧
    (pixels[pixelOffset (captureX x cols cw) (captureY y rows ch) cw + 3]?).isSome := by
  have hcx : captureX x cols cw < cw := by
    rw [captureX_eq_div]
    rw [Nat.div_lt_iff_lt_mul (by omega : 0 < cols)]
    calc x * cw < cols * cw := by
          exact Nat.mul_lt_mul_of_lt_of_le hx (le_refl cw) (by omega)
      _ = cw * cols := Nat.mul_comm _ _
  have hcy : captureY y rows ch < ch := by
    rw [captureY_eq_div]
    rw [Nat.div_lt_iff_lt_mul (by omega : 0 < rows)]
    calc y * ch < rows * ch := by
          exact Nat.mul_lt_mul_of_lt_of_le hy (le_refl ch) (by omega)
      _ = ch * rows := Nat.mul_comm _ _
  have hsum : captureY y rows ch * cw + captureX x cols cw + 1 ≤ cw * ch := by
    calc captureY y rows ch * cw + captureX x cols cw + 1
        ≤ captureY y rows ch * cw + cw := by omega
      _ = (captureY y rows ch + 1) * cw := by ring
      _ ≤ ch * cw := Nat.mul_le_mul_right cw (by omega)
      _ = cw * ch := Nat.mul_comm _ _
  have hbound : pixelOffset (captureX x cols cw) (captureY y rows ch) cw + 3 < pixels.length := by
    rw [hlen, pixelOffset]; omega
  refine ⟨by rw [pixelOffset]; omega, by rw [pixelOffset]; omega, ?_, ?_, ?_, ?_⟩
  · simp only [sampleAt]
    exact isSome_of_lt (by omega)
  · simp only [sampleAt]
    exact isSome_of_lt (by omega)
  · simp only [sampleAt]
    exact isSome_of_lt (by omega)
  · exact isSome_of_lt (by omega)

/-- Witness for C2 at the spec's concrete instance: a 10×10 buffer
(400 channel values), cols = rows = 10, cell (3, 2). -/
theorem sampler_in_bounds_witness :
    pixelOffset (captureX 3 10 10) (captureY 2 10 10) 10 ≤ (10 * 10 - 1) * 4 ∧
    pixelOffset (captureX 3 10 10) (captureY 2 10 10) 10 + 3 < 10 * 10 * 4 ∧
    (sampleAt (List.replicate 400 0) 10 10 10 10 3 2).1.isSome ∧
    (sampleAt (List.replicate 400 0) 10 10 10 10 3 2).2.1.isSome ∧
    (sampleAt (List.replicate 400 0) 10 10 10 10 3 2).2.2.isSome ∧
    ((List.replicate 400 0)[pixelOffset (captureX 3 10 10) (captureY 2 10 10) 10 + 3]?).isSome :=
  sampler_in_bounds (List.replicate 400 0) 10 10 10 10 3 2
    (by norm_num) (by norm_num) (by norm_num) (by norm_num) (by norm_num) (by norm_num)
    (by rw [List.length_replicate])

/-! ## C3 — brightness is the exact unweighted channel average -/

/-- C3: `brightness = (r + g + b) / 3` with exact division lies in
[0, 255] for channel values in [0, 255]; `brightness 10 20 30 = 20`
exactly and `brightness 0 0 1 = 1/3`, not 0. -/
theorem brightness_avg (r g b : ℕ) (hr : r ≤ 255) (hg : g ≤ 255) (hb : b ≤ 255) :
    0 ≤ brightness r g b ∧ brightness r g b ≤ 255 ∧
    brightness 10 20 30 = 20 ∧ brightness 0 0 1 = 1 / 3 ∧ brightness 0 0 1 ≠ 0 := by
  have hr' : (r : ℚ) ≤ 255 := by exact_mod_cast hr
  have hg' : (g : ℚ) ≤ 255 := by exact_mod_cast hg
  have hb' : (b : ℚ) ≤ 255 := by exact_mod_cast hb
  refine ⟨by rw [brightness]; positivity, ?_,
    by norm_num [brightness], by norm_num [brightness], by norm_num [brightness]⟩
  rw [brightness, div_le_iff₀ (by norm_num : (0 : ℚ) < 3)]
  linarith

/-- Witness for C3 at r = g = b = 255. -/
theorem brightness_avg_witness :
    0 ≤ brightness 255 255 255 ∧ brightness 255 255 255 ≤ 255 ∧
    brightness 10 20 30 = 20 ∧ brightness 0 0 1 = 1 / 3 ∧ brightness 0 0 1 ≠ 0 :=
  brightness_avg 255 255 255 (by norm_num) (by norm_num) (by norm_num)

/-! ## C5 — grid dimensions are floored quotients of the canvas -/

/-- C5: for positive cellSize, `cols = floor(canvasWidth / cellSize)`
(equal to natural division) and `cols * cellSize ≤ canvasWidth`; likewise
for rows against the canvas height. -/
theorem grid_dims (cell : ℕ) (_hc : 0 < cell) :
    gridCols width cell = width / cell ∧ gridCols width cell * cell ≤ width ∧
    gridCols height cell = height / cell ∧ gridCols height cell * cell ≤ height := by
  refine ⟨gridCols_eq_div _ _, ?_, gridCols_eq_div _ _, ?_⟩ <;>
    rw [gridCols_eq_div] <;> exact Nat.div_mul_le_self _ _

/-- Witness for C5 at the initial `gridSize = 20`. -/
theorem grid_dims_witness :
    gridCols width 20 = width / 20 ∧ gridCols width 20 * 20 ≤ width ∧
    gridCols height 20 = height / 20 ∧ gridCols height 20 * 20 ≤ height :=
  grid_dims 20 (by norm_num)

/-! ## C4 — disk3D depth and rotation mapping -/

/-- C4: in disk3D mode `zDepth = map(brightness, 0, 255, -100, 100)` (as
wired into `renderCell`) and the rotation is `map(brightness, 0, 255, 0, π)`;
brightness 0 gives depth -100 / rotation 0, brightness 255 gives depth 100 /
rotation π, and brightness 127.5 gives depth 0 / rotation π/2 exactly. -/
theorem disk3D_depth_rotation :
    (∀ br : ℚ, zDepthOf br = p5map br 0 255 (-100) 100) ∧
    (∀ (s : SketchState) (cols rows x y : ℕ),
      (renderCell s cols rows x y).zDepth =
        (sampleBrightness
          (sampleAt s.pixels s.captureWidth s.captureHeight cols rows x y)).map zDepthOf) ∧
    zDepthOf 0 = -100 ∧ zDepthOf 255 = 100 ∧ zDepthOf 127.5 = 0 ∧
    p5map (0 : ℝ) 0 255 0 Real.pi = 0 ∧
    p5map (255 : ℝ) 0 255 0 Real.pi = Real.pi ∧
    p5map (127.5 : ℝ) 0 255 0 Real.pi = Real.pi / 2 := by
  have e1 : ∀ b : ℝ, p5map b 0 255 0 Real.pi = b / 255 * Real.pi := by
    intro b; rw [p5map]; ring
  refine ⟨fun _ => rfl, fun _ _ _ _ _ => rfl,
    by norm_num [zDepthOf, p5map], by norm_num [zDepthOf, p5map],
    by norm_num [zDepthOf, p5map], ?_, ?_, ?_⟩
  · rw [e1]; ring
  · rw [e1]; norm_num
  · rw [e1]
    rw [show (127.5 : ℝ) / 255 = 1 / 2 by norm_num]
    ring

/-! ## C9 — brightness-to-rotation and brightness-to-depth are monotone -/

/-- C9: both `map(·, 0, 255, 0, π)` and `map(·, 0, 255, -100, 100)` are
monotone non-decreasing on [0, 255], the rotation lies in [0, π] and the
depth in [-100, 100]. -/
theorem map_monotone (b₁ b₂ : ℝ) (h0 : 0 ≤ b₁) (h12 : b₁ ≤ b₂) (h255 : b₂ ≤ 255) :
    p5map b₁ 0 255 0 Real.pi ≤ p5map b₂ 0 255 0 Real.pi ∧
    p5map b₁ 0 255 (-100) 100 ≤ p5map b₂ 0 255 (-100) 100 ∧
    0 ≤ p5map b₁ 0 255 0 Real.pi ∧ p5map b₁ 0 255 0 Real.pi ≤ Real.pi ∧
    -100 ≤ p5map b₁ 0 255 (-100) 100 ∧ p5map b₁ 0 255 (-100) 100 ≤ 100 := by
  have hpi := Real.pi_pos
  have e1 : ∀ b : ℝ, p5map b 0 255 0 Real.pi = b / 255 * Real.pi := by
    intro b; rw [p5map]; ring
  have e2 : ∀ b : ℝ, p5map b 0 255 (-100) 100 = b / 255 * 200 - 100 := by
    intro b; rw [p5map]; ring
  have q0 : 0 ≤ b₁ / 255 := by positivity
  have q12 : b₁ / 255 ≤ b₂ / 255 := by gcongr
  have q1 : b₁ / 255 ≤ 1 := by
    rw [div_le_one (by norm_num : (0 : ℝ) < 255)]; linarith
  rw [e1, e1, e2, e2]
  refine ⟨mul_le_mul_of_nonneg_right q12 hpi.le, by linarith,
    mul_nonneg q0 hpi.le, ?_, by linarith, by linarith⟩
  calc b₁ / 255 * Real.pi ≤ 1 * Real.pi := mul_le_mul_of_nonneg_right q1 hpi.le
    _ = Real.pi := one_mul _

/-- Witness for C9 at the endpoints b₁ = 0, b₂ = 255. -/
theorem map_monotone_witness :
    p5map (0 : ℝ) 0 255 0 Real.pi ≤ p5map 255 0 255 0 Real.pi ∧
    p5map (0 : ℝ) 0 255 (-100) 100 ≤ p5map 255 0 255 (-100) 100 ∧
    0 ≤ p5map (0 : ℝ) 0 255 0 Real.pi ∧ p5map (0 : ℝ) 0 255 0 Real.pi ≤ Real.pi ∧
    -100 ≤ p5map (0 : ℝ) 0 255 (-100) 100 ∧ p5map (0 : ℝ) 0 255 (-100) 100 ≤ 100 :=
  map_monotone 0 255 (by norm_num) (by norm_num) (by norm_num)

/-! ## C6 — key handler keeps gridSize in [10, 40] and diskRadius in [5, 30] -/

/-- One key press preserves the clamping invariant. -/
theorem keyPressed_bounds (e : KeyEvent) (s : SketchState)
    (hg1 : 10 ≤ s.gridSize) (hg2 : s.gridSize ≤ 40)
    (hd1 : 5 ≤ s.diskRadius) (hd2 : s.diskRadius ≤ 30) :
    10 ≤ (keyPressed e s).gridSize ∧ (keyPressed e s).gridSize ≤ 40 ∧
    5 ≤ (keyPressed e s).diskRadius ∧ (keyPressed e s).diskRadius ≤ 30 := by
  simp only [keyPressed]
  split_ifs <;> (try simp) <;> omega

/-- Any sequence of key presses preserves the clamping invariant. -/
theorem keyFold_bounds (ks : List KeyEvent) (s : SketchState)
    (hg1 : 10 ≤ s.gridSize) (hg2 : s.gridSize ≤ 40)
    (hd1 : 5 ≤ s.diskRadius) (hd2 : s.diskRadius ≤ 30) :
    10 ≤ (keyFold s ks).gridSize ∧ (keyFold s ks).gridSize ≤ 40 ∧
    5 ≤ (keyFold s ks).diskRadius ∧ (keyFold s ks).diskRadius ≤ 30 := by
  induction ks generalizing s with
  | nil => exact ⟨hg1, hg2, hd1, hd2⟩
  | cons k ks ih =>
    have h := keyPressed_bounds k s hg1 hg2 hd1 hd2
    exact ih (keyPressed k s) h.1 h.2.1 h.2.2.1 h.2.2.2

/-- C6: starting from the initial configuration (gridSize = 20,
diskRadius = 15), after any finite sequence of keyPressed events the
gridSize remains in [10, 40] and the diskRadius in [5, 30]. -/
theorem keyPressed_clamped (s : SketchState)
    (hg : s.gridSize = 20) (hd : s.diskRadius = 15) (ks : List KeyEvent) :
    10 ≤ (keyFold s ks).gridSize ∧ (keyFold s ks).gridSize ≤ 40 ∧
    5 ≤ (keyFold s ks).diskRadius ∧ (keyFold s ks).diskRadius ≤ 30 :=
  keyFold_bounds ks s (by omega) (by omega) (by omega) (by omega)

/-- Witness for C6: the initial state with a concrete burst of key events
(repeated up-arrows past the clamp, then a bracket). -/
theorem keyPressed_clamped_witness :
    10 ≤ (keyFold initialState
      [⟨"", UP_ARROW⟩, ⟨"", UP_ARROW⟩, ⟨"", UP_ARROW⟩, ⟨"", UP_ARROW⟩,
       ⟨"", UP_ARROW⟩, ⟨"", UP_ARROW⟩, ⟨"[", 219⟩, ⟨"]", 221⟩]).gridSize ∧
    (keyFold initialState
      [⟨"", UP_ARROW⟩, ⟨"", UP_ARROW⟩, ⟨"", UP_ARROW⟩, ⟨"", UP_ARROW⟩,
       ⟨"", UP_ARROW⟩, ⟨"", UP_ARROW⟩, ⟨"[", 219⟩, ⟨"]", 221⟩]).gridSize ≤ 40 ∧
    5 ≤ (keyFold initialState
      [⟨"", UP_ARROW⟩, ⟨"", UP_ARROW⟩, ⟨"", UP_ARROW⟩, ⟨"", UP_ARROW⟩,
       ⟨"", UP_ARROW⟩, ⟨"", UP_ARROW⟩, ⟨"[", 219⟩, ⟨"]", 221⟩]).diskRadius ∧
    (keyFold initialState
      [⟨"", UP_ARROW⟩, ⟨"", UP_ARROW⟩, ⟨"", UP_ARROW⟩, ⟨"", UP_ARROW⟩,
       ⟨"", UP_ARROW⟩, ⟨"", UP_ARROW⟩, ⟨"[", 219⟩, ⟨"]", 221⟩]).diskRadius ≤ 30 :=
  keyPressed_clamped initialState rfl rfl _

/-! ## C8 — one frame reads but never writes the buffer or configuration -/

/-- C8: one execution of the frame routine leaves the pixel buffer
contents, gridSize and diskRadius exactly as they were: `draw()` contains
no assignment to any of them. -/
theorem draw_readonly (s : SketchState) :
    (draw s).1.pixels = s.pixels ∧ (draw s).1.gridSize = s.gridSize ∧
    (draw s).1.diskRadius = s.diskRadius :=
  ⟨rfl, rfl, rfl⟩

/-! ## C10 — one frame is deterministic in its inputs -/

/-- C10: two executions of the frame routine on states agreeing on the
pixel buffer, capture dimensions, mouse position, gridSize and diskRadius
produce identical frame output — in particular identical disk positions,
material colors, and rotation angles `map(brightness, 0, 255, 0, π)` in the
same order. -/
theorem draw_deterministic (s₁ s₂ : SketchState)
    (hp : s₁.pixels = s₂.pixels)
    (hcw : s₁.captureWidth = s₂.captureWidth)
    (hch : s₁.captureHeight = s₂.captureHeight)
    (hmx : s₁.mouseX = s₂.mouseX) (hmy : s₁.mouseY = s₂.mouseY)
    (hg : s₁.gridSize = s₂.gridSize) (hd : s₁.diskRadius = s₂.diskRadius) :
    draw s₁ = draw s₂ ∧
    ((draw s₁).2.disks.map fun c =>
      c.brightness.map fun v => p5map (v : ℝ) 0 255 0 Real.pi) =
    ((draw s₂).2.disks.map fun c =>
      c.brightness.map fun v => p5map (v : ℝ) 0 255 0 Real.pi) := by
  have h : s₁ = s₂ := by cases s₁; cases s₂; simp_all
  subst h
  exact ⟨rfl, rfl⟩

/-- Witness for C10 at the initial state. -/
theorem draw_deterministic_witness :
    draw initialState = draw initialState ∧
    ((draw initialState).2.disks.map fun c =>
      c.brightness.map fun v => p5map (v : ℝ) 0 255 0 Real.pi) =
    ((draw initialState).2.disks.map fun c =>
      c.brightness.map fun v => p5map (v : ℝ) 0 255 0 Real.pi) :=
  draw_deterministic initialState initialState rfl rfl rfl rfl rfl rfl rfl

/-! ## C7 — exactly one disk draw call per grid cell -/

/-- Two cells with distinct indices emit distinct disk calls (their screen
positions differ when gridSize is nonzero). -/
theorem renderCell_inj (s : SketchState) (hg : s.gridSize ≠ 0)
    (cols rows : ℕ) {x₁ y₁ x₂ y₂ : ℕ}
    (h : renderCell s cols rows x₁ y₁ = renderCell s cols rows x₂ y₂) :
    x₁ = x₂ ∧ y₁ = y₂ := by
  have hgQ : (s.gridSize : ℚ) ≠ 0 := Nat.cast_ne_zero.mpr hg
  have hx := congrArg DiskCall.xPos h
  have hy := congrArg DiskCall.yPos h
  simp only [renderCell] at hx hy
  constructor
  · have h1 : (x₁ : ℚ) * s.gridSize = (x₂ : ℚ) * s.gridSize := by linarith
    exact_mod_cast mul_right_cancel₀ hgQ h1
  · have h1 : (y₁ : ℚ) * s.gridSize = (y₂ : ℚ) * s.gridSize := by linarith
    exact_mod_cast mul_right_cancel₀ hgQ h1

/-- In a grid flattened row-by-row from an injective cell function, each
in-range cell value occurs exactly once. -/
theorem count_grid {α : Type} [DecidableEq α] (f : ℕ → ℕ → α) {cols rows x y : ℕ}
    (hx : x < cols) (hy : y < rows)
    (hinj : ∀ x₁ y₁ x₂ y₂, f x₁ y₁ = f x₂ y₂ → x₁ = x₂ ∧ y₁ = y₂) :
    List.count (f x y)
      ((List.range rows).flatMap fun yy => (List.range cols).map fun xx => f xx yy) = 1 := by
  revert hy
  induction rows with
  | zero => intro hy; omega
  | succ n ih =>
    intro hy
    rw [List.range_succ, List.flatMap_append, List.count_append]
    have hsingle : (([n] : List ℕ).flatMap fun yy => (List.range cols).map fun xx => f xx yy)
        = (List.range cols).map fun xx => f xx n := by simp
    rw [hsingle]
    rcases Nat.lt_or_ge y n with h | h
    · rw [ih h]
      have hz : List.count (f x y) ((List.range cols).map fun xx => f xx n) = 0 := by
        rw [List.count_eq_zero]
        intro hmem
        rw [List.mem_map] at hmem
        obtain ⟨xx, _, hfx⟩ := hmem
        have := (hinj _ _ _ _ hfx).2
        omega
      omega
    · have hyn : y = n := by omega
      subst hyn
      have h0 : List.count (f x y)
          ((List.range y).flatMap fun yy => (List.range cols).map fun xx => f xx yy) = 0 := by
        rw [List.count_eq_zero]
        intro hmem
        rw [List.mem_flatMap] at hmem
        obtain ⟨yy, hyy, hmem2⟩ := hmem
        rw [List.mem_map] at hmem2
        obtain ⟨xx, _, hfx⟩ := hmem2
        have := (hinj _ _ _ _ hfx).2
        rw [List.mem_range] at hyy
        omega
      rw [h0]
      have hcinj : Function.Injective fun xx => f xx y := fun a b hab => (hinj _ _ _ _ hab).1
      rw [List.count_map_of_injective _ _ hcinj]
      rw [List.count_eq_one_of_mem (List.nodup_range cols) (List.mem_range.mpr hx)]

theorem sum_map_const (n c : ℕ) : ((List.range n).map fun _ => c).sum = n * c := by
  induction n with
  | zero => simp
  | succ m ih => rw [List.range_succ]; simp [ih]; ring

/-- The frame emits `cols * rows` disk calls. -/
theorem disks_length (s : SketchState) :
    (draw s).2.disks.length =
      gridCols width s.gridSize * gridCols height s.gridSize := by
  simp only [draw]
  rw [List.length_flatMap]
  simp only [Function.comp_def, List.length_map, List.length_range]
  rw [sum_map_const]
  exact Nat.mul_comm _ _

/-- C7: one frame emits exactly `cols * rows` disk draw calls, and every
grid cell's disk call occurs exactly once in the emitted sequence — never
zero, never more than once — for every buffer contents and configuration. -/
theorem one_disk_per_cell (s : SketchState) (x y : ℕ)
    (hx : x < gridCols width s.gridSize) (hy : y < gridCols height s.gridSize) :
    (draw s).2.disks.length =
      gridCols width s.gridSize * gridCols height s.gridSize ∧
    List.count
      (renderCell s (gridCols width s.gridSize) (gridCols height s.gridSize) x y)
      (draw s).2.disks = 1 := by
  have hg : s.gridSize ≠ 0 := by
    intro h
    have h0 : gridCols width 0 = 0 := by simp [gridCols]
    rw [h, h0] at hx
    omega
  refine ⟨disks_length s, ?_⟩
  have hdisks : (draw s).2.disks =
      (List.range (gridCols height s.gridSize)).flatMap fun yy =>
        (List.range (gridCols width s.gridSize)).map fun xx =>
          renderCell s (gridCols width s.gridSize) (gridCols height s.gridSize) xx yy := rfl
  rw [hdisks]
  exact count_grid _ hx hy fun a b c d habcd => renderCell_inj s hg _ _ habcd

/-- Witness for C7 at the initial state and cell (0, 0). -/
theorem one_disk_per_cell_witness :
    (draw initialState).2.disks.length =
      gridCols width initialState.gridSize * gridCols height initialState.gridSize ∧
    List.count
      (renderCell initialState (gridCols width initialState.gridSize)
        (gridCols height initialState.gridSize) 0 0)
      (draw initialState).2.disks = 1 :=
  one_disk_per_cell initialState 0 0
    (by rw [gridCols_eq_div]; norm_num [width, initialState])
    (by rw [gridCols_eq_div]; norm_num [height, initialState])

end PixelMirror
